import Mathlib

/-
Verification of the PollBuilder persistent entity store and vote engine.

The repository stores users and polls through a generic JSON-file-backed
keyed store (`JsonFileStorage`, src/unnamed/part_003, plus a second variant
of the same class concatenated into src/src/storage/JsonFilePollStorage.js)
and a poll specialization (`JsonFilePollStorage`, two variants in the same
file) that records votes and aggregates results.  This file embeds those
operations shallowly: the in-memory `Map` cache and JS objects become
insertion-ordered association lists, JS numbers become rationals (every
comparison and the `Number.isInteger` test used by the code are exact on
rationals), thrown `Error`s become an explicit error type, and the
`fs.writeFile` call in `_saveToFile` becomes a boolean "the write succeeds"
parameter together with an explicit model of the durable file contents.
-/

namespace PollBuilder

/-! ### JS `Map` / object key-value primitives

`this.data` is a JS `Map` (string keys, insertion-ordered); `poll.votes` is
a plain JS object used as a map from username to option index.  Both are
modelled as association lists with unique key semantics: `mapGet` is
`Map.get` / property read, `mapSet` is `Map.set` / property assignment
(overwrite in place, append when new — both keep first-insertion order),
`mapHas` is `Map.has` / `hasOwnProperty`, `mapDelete` is `Map.delete`. -/

def mapGet {κ α : Type} [DecidableEq κ] : List (κ × α) → κ → Option α
  | [], _ => none
  | (k, v) :: rest, key => if k = key then some v else mapGet rest key

def mapHas {κ α : Type} [DecidableEq κ] (m : List (κ × α)) (key : κ) : Bool :=
  (mapGet m key).isSome

def mapSet {κ α : Type} [DecidableEq κ] : List (κ × α) → κ → α → List (κ × α)
  | [], key, v => [(key, v)]
  | (k, w) :: rest, key, v =>
    if k = key then (key, v) :: rest else (k, w) :: mapSet rest key v

def mapDelete {κ α : Type} [DecidableEq κ] : List (κ × α) → κ → List (κ × α)
  | [], _ => []
  | (k, w) :: rest, key => if k = key then rest else (k, w) :: mapDelete rest key

/-! ### JSON-serializable values

Everything the store keeps is the result of a `JSON.parse(JSON.stringify _)`
round trip, so only null, booleans, numbers, strings, arrays and objects
occur.  Object field lists are insertion-ordered with unique keys. -/

inductive JsVal : Type where
  | nullV : JsVal
  | boolV : Bool → JsVal
  | numV : Rat → JsVal
  | strV : String → JsVal
  | arrV : List JsVal → JsVal
  | objV : List (String × JsVal) → JsVal

/-- A JS object: its insertion-ordered field list. -/
abbrev JsObj : Type := List (String × JsVal)

/-- The object literal that starts with the field `id: stringId` and then
spreads `storedData` over it, as in `JsonFileStorage.create` and `update`
(part_003 lines 162 and 215).  Spread assigns the payload fields in order
after the initial `id` field, and a later assignment to an existing key
overwrites it in place — so a payload that itself carries an `id` field
overwrites the first field. -/
def spreadWithId (stringId : String) (data : JsObj) : JsObj :=
  data.foldl (fun acc kv => mapSet acc kv.1 kv.2) [("id", JsVal.strV stringId)]

/-! ### Errors

The source distinguishes errors only by their message string; the spec's
taxonomy (§7) assigns each throw site a kind.  Each constructor below stands
for one throw site's `Error`, carrying the data interpolated into its
message; `referenceError` stands for a JS `ReferenceError` raised while
evaluating a template that names an unbound identifier. -/

inductive StorageError : Type where
  /-- part_003 line 157: `_formatDuplicateError id` (subclasses only change
  the message text). -/
  | duplicateKey : String → StorageError
  /-- part_003 line 209 and JsonFilePollStorage variants:
  `_formatNotFoundError id` / `Poll with ID ... not found`. -/
  | notFound : String → StorageError
  /-- JsonFilePollStorage.js lines 128 and 309: user already a key of
  `votes`. -/
  | duplicateVote : String → String → StorageError
  /-- JsonFilePollStorage.js line 120: empty or non-string username. -/
  | invalidUsername : StorageError
  /-- JsonFilePollStorage.js line 123: `optionIndex` is not an integer. -/
  | invalidOptionNotInteger : StorageError
  /-- JsonFilePollStorage.js lines 134 and 314: option index out of range. -/
  | invalidOptionIndex : Rat → StorageError
  /-- part_003 line 122: `_saveToFile` failed and rethrew. -/
  | persistenceFailure : StorageError
  /-- A `ReferenceError` for the named unbound identifier — raised by the
  second `create` variant's duplicate branch (JsonFilePollStorage.js line
  456), whose message template names `username`, which is not in scope. -/
  | referenceError : String → StorageError
deriving DecidableEq

/-! ### The generic keyed store (`JsonFileStorage`)

State is the in-memory cache `this.data` plus the durable file contents
(the entity array last successfully written by `_saveToFile`).  Every
operation returns its result together with the post-state, so failed calls
can be compared against the pre-state.  `String(id)` is the identity here
because ids are already strings.  `JSON.parse(JSON.stringify _)` is the
identity on pure values; the aliasing consequences of deep copying are
modelled separately by `HeapStore` below. -/

structure Store : Type where
  cache : List (String × JsObj)
  file : List JsObj

/-- `_saveToFile` (part_003 lines 115-124): writes `Array.from(this.data.values())`
to the file, or rethrows the write fault as a persistence failure.  The
`saveOk` parameter records whether the underlying `fs.writeFile` succeeds. -/
def saveToFile (saveOk : Bool) (s : Store) : Except StorageError Store :=
  if saveOk then .ok { s with file := s.cache.map Prod.snd }
  else .error .persistenceFailure

/-- `JsonFileStorage.create` (part_003 lines 152-170): duplicate check, then
insert `\x7b id, ...data \x7d` into the cache, then save.  The cache insert
happens before the save, so a failed save leaves the insert in the cache. -/
def Store.create (saveOk : Bool) (s : Store) (id : String) (data : JsObj) :
    Except StorageError JsObj × Store :=
  if mapHas s.cache id then
    (.error (.duplicateKey id), s)
  else
    let newEntity := spreadWithId id data
    let s1 : Store := ⟨mapSet s.cache id newEntity, s.file⟩
    match saveToFile saveOk s1 with
    | .ok s2 => (.ok newEntity, s2)
    | .error e => (.error e, s1)

/-- The second `JsonFileStorage` variant's `create`
(src/src/storage/JsonFilePollStorage.js lines 452-467).  Identical to
part_003 except for the duplicate branch: its message template is
`Username ${username} already exists, try a different one.` and `username`
is not bound in this method, so evaluating the throw raises a
`ReferenceError` instead of the intended duplicate-key `Error`. -/
def Store.createV2 (saveOk : Bool) (s : Store) (id : String) (data : JsObj) :
    Except StorageError JsObj × Store :=
  if mapHas s.cache id then
    (.error (.referenceError "username"), s)
  else
    let newEntity := spreadWithId id data
    let s1 : Store := ⟨mapSet s.cache id newEntity, s.file⟩
    match saveToFile saveOk s1 with
    | .ok s2 => (.ok newEntity, s2)
    | .error e => (.error e, s1)

/-- `JsonFileStorage.getById` (part_003 lines 180-191): a pure read of the
cache; the returned record is a deep copy (identity on values). -/
def Store.getById (s : Store) (id : String) : Option JsObj :=
  mapGet s.cache id

/-- `JsonFileStorage.update` (part_003 lines 204-223): not-found check, then
replace the cache entry with `\x7b id, ...data \x7d`, then save. -/
def Store.update (saveOk : Bool) (s : Store) (id : String) (data : JsObj) :
    Except StorageError JsObj × Store :=
  if mapHas s.cache id then
    let updatedEntity := spreadWithId id data
    let s1 : Store := ⟨mapSet s.cache id updatedEntity, s.file⟩
    match saveToFile saveOk s1 with
    | .ok s2 => (.ok updatedEntity, s2)
    | .error e => (.error e, s1)
  else (.error (.notFound id), s)

/-- `JsonFileStorage.delete` (part_003 lines 234-248): `false` when absent,
otherwise remove from the cache and save. -/
def Store.delete (saveOk : Bool) (s : Store) (id : String) :
    Except StorageError Bool × Store :=
  if mapHas s.cache id then
    let s1 : Store := ⟨mapDelete s.cache id, s.file⟩
    match saveToFile saveOk s1 with
    | .ok s2 => (.ok true, s2)
    | .error e => (.error e, s1)
  else (.ok false, s)

/-! ### The poll store (`JsonFilePollStorage`)

Polls created through `createPoll` have exactly the fields below, with the
record's `id` field equal to its cache key, so the poll operations are
embedded over a typed poll record rather than raw `JsObj`.  Vote values stay
rationals: the durable file may contain any number there, and the second
`addVote` variant can itself store a non-integer.  Both `JsonFileStorage`
variants agree on `getById` and `update` at poll records. -/

structure Poll : Type where
  id : String
  question : String
  options : List String
  createdBy : String
  votes : List (String × Rat)
deriving DecidableEq

/-- A poll store cache: the `this.data` map restricted to poll records.  The
poll operations below model runs in which `_saveToFile` succeeds (the
persistence-failure behavior is settled on `Store`). -/
abbrev PollStore : Type := List (String × Poll)

/-- `JsonFileStorage.update` specialized to a poll payload: the stored and
returned entity is the object `\x7b id: pollId, ...data \x7d`, and since the
poll payload carries every field including `id`, the spread reproduces the
payload verbatim. -/
def PollStore.update (ps : PollStore) (pollId : String) (p : Poll) :
    Except StorageError Poll × PollStore :=
  if mapHas ps pollId then (.ok p, mapSet ps pollId p)
  else (.error (.notFound pollId), ps)

/-- The test `username.trim() === ''` of JsonFilePollStorage.js line 119:
trimming strips whitespace from both ends, so the result is the empty string
exactly when every character of the string is whitespace (in particular when
the string is empty). -/
def trimEmpty (s : String) : Bool :=
  s.toList.all Char.isWhitespace

/-- The read-and-check phase of `addVote`, first variant
(src/src/storage/JsonFilePollStorage.js lines 109-141): `getById` the poll
(a snapshot copy), validate the username, require an integer option index,
reject a user already present in `votes`, reject an out-of-range index, and
produce the updated poll copy to be written back.  `typeof username` and
`typeof optionIndex` checks are identically satisfied by the types; the
`!poll.votes` and `!poll.options` guards are identically false for poll
records. -/
def addVotePrepare (ps : PollStore) (pollId username : String) (optionIndex : Rat) :
    Except StorageError Poll :=
  match mapGet ps pollId with
  | none => .error (.notFound pollId)
  | some poll =>
    if trimEmpty username then .error .invalidUsername
    else if optionIndex.den ≠ 1 then .error .invalidOptionNotInteger
    else if mapHas poll.votes username then .error (.duplicateVote username pollId)
    else if optionIndex < 0 ∨ (poll.options.length : Rat) ≤ optionIndex then
      .error (.invalidOptionIndex optionIndex)
    else .ok { poll with votes := mapSet poll.votes username optionIndex }

/-- The write-back phase of `addVote` (line 145): `this.update(pollId, poll)`. -/
def addVoteCommit (ps : PollStore) (pollId : String) (p : Poll) :
    Except StorageError Poll × PollStore :=
  PollStore.update ps pollId p

/-- `addVote`, first variant (JsonFilePollStorage.js lines 109-146): the
read-and-check phase followed by the write-back.  The two phases are
separated by the `await` suspension points of the source; a sequential call
runs them back to back on the same store. -/
def addVote (ps : PollStore) (pollId username : String) (optionIndex : Rat) :
    Except StorageError Poll × PollStore :=
  match addVotePrepare ps pollId username optionIndex with
  | .error e => (.error e, ps)
  | .ok p => addVoteCommit ps pollId p

/-- `addVote`, second variant (JsonFilePollStorage.js lines 301-320): no
username validation and no integer check — only the duplicate-vote check and
the numeric range check `optionIndex < 0 || optionIndex >= options.length`,
so any number inside the range passes, integer or not. -/
def addVoteV2 (ps : PollStore) (pollId username : String) (optionIndex : Rat) :
    Except StorageError Poll × PollStore :=
  match mapGet ps pollId with
  | none => (.error (.notFound pollId), ps)
  | some poll =>
    if mapHas poll.votes username then (.error (.duplicateVote username pollId), ps)
    else if optionIndex < 0 ∨ (poll.options.length : Rat) ≤ optionIndex then
      (.error (.invalidOptionIndex optionIndex), ps)
    else
      PollStore.update ps pollId { poll with votes := mapSet poll.votes username optionIndex }

/-! ### Result aggregation -/

/-- The aggregated results record returned by `getPollResults`: `results`
pairs each option with its tally.  Tallies are counts, hence naturals. -/
structure PollResults : Type where
  id : String
  question : String
  createdBy : String
  totalVotes : Nat
  results : List (String × Nat)
deriving DecidableEq

/-- JS `voteCounts[optionIndex]++` on the tally array: only an integer index
inside `[0, t.length)` changes a slot of the array.  Any other number leaves
every slot unchanged: a negative or fractional index creates an ordinary
property outside the slots, and an integer index at or beyond `t.length`
grows the array past the last slot the results ever read (the results read
exactly slots `0..options.length-1`, and slots below the original length
are unaffected by such growth). -/
def voteCountsInc (t : List Nat) (i : Rat) : List Nat :=
  if i.den = 1 ∧ 0 ≤ i.num ∧ i.num < (t.length : Int) then
    t.set i.num.toNat (t.getD i.num.toNat 0 + 1)
  else t

/-- `getPollResults`, first variant (JsonFilePollStorage.js lines 165-212):
read the poll, zero-initialize one counter per option, then for each vote
value count it and bump its slot only when it is a number in
`[0, voteCounts.length)` (skipping others with a warning), and pair each
option in order with its slot.  The `Array.isArray(poll.options)` and
`typeof poll.votes` guards are identically satisfied by poll records, and
`typeof optionIndex === number` holds for every rational vote value.  The
range guard does not test integrality, so a fractional value inside the
range is counted into `totalVotes` although its increment lands outside
every slot. -/
def getPollResults (ps : PollStore) (pollId : String) :
    Except StorageError PollResults :=
  match mapGet ps pollId with
  | none => .error (.notFound pollId)
  | some poll =>
    let acc := poll.votes.foldl
      (fun (acc : List Nat × Nat) uv =>
        if 0 ≤ uv.2 ∧ uv.2 < (poll.options.length : Rat) then
          (voteCountsInc acc.1 uv.2, acc.2 + 1)
        else acc)
      (List.replicate poll.options.length 0, 0)
    .ok ⟨pollId, poll.question, poll.createdBy, acc.2,
      poll.options.enum.map (fun p => (p.2, acc.1.getD p.1 0))⟩

/-- `getPollResults`, second variant (JsonFilePollStorage.js lines 327-354):
same read and per-option pairing, but the loop body is the unguarded
`voteCounts[optionIndex]++` and `totalVotes` is `Object.keys(poll.votes).length`
— the number of vote entries, whether or not their values landed in a slot. -/
def getPollResultsV2 (ps : PollStore) (pollId : String) :
    Except StorageError PollResults :=
  match mapGet ps pollId with
  | none => .error (.notFound pollId)
  | some poll =>
    let tally := poll.votes.foldl (fun t uv => voteCountsInc t uv.2)
      (List.replicate poll.options.length 0)
    .ok ⟨pollId, poll.question, poll.createdBy, poll.votes.length,
      poll.options.enum.map (fun p => (p.2, tally.getD p.1 0))⟩

/-! ### Aliasing model of the store (`HeapStore`)

Whether a caller "holds a reference into the store's internal state" is a
heap question, invisible to the pure model above.  Every record the store
keeps or returns is produced by a whole-record `JSON.parse(JSON.stringify _)`
round trip, so records never share structure and aliasing only exists at
whole-record granularity: the heap maps an address to the record object
currently stored there.  `getById`/`getAll`/`filter` outputs allocate fresh
copies (part_003 lines 190, 262, 288), while `filter` applies the predicate
to the cached record itself (line 286: `filterFn(entity)` over
`this.data.values()`), so a predicate that mutates its argument writes
through the cache's own address. -/

structure HeapStore : Type where
  heap : List (Nat × JsObj)
  next : Nat
  cache : List (String × Nat)

/-- Addresses held by the store point into the heap region already
allocated. -/
def HeapStore.WF (s : HeapStore) : Prop :=
  ∀ p ∈ s.cache, p.2 < s.next

/-- Allocate a record at a fresh address. -/
def HeapStore.alloc (s : HeapStore) (v : JsObj) : Nat × HeapStore :=
  (s.next, ⟨mapSet s.heap s.next v, s.next + 1, s.cache⟩)

/-- `JSON.parse(JSON.stringify _)` of the record at `a`: a fresh record with
equal contents. -/
def HeapStore.deepCopy (s : HeapStore) (a : Nat) : Nat × HeapStore :=
  s.alloc ((mapGet s.heap a).getD [])

/-- A caller mutating a record it holds an address to: the write goes to
that address. -/
def HeapStore.write (s : HeapStore) (a : Nat) (v : JsObj) : HeapStore :=
  { s with heap := mapSet s.heap a v }

/-- `getById` at heap granularity (part_003 lines 180-191): look the address
up in the cache and hand the caller a deep copy's fresh address. -/
def HeapStore.getById (s : HeapStore) (id : String) : Option Nat × HeapStore :=
  match mapGet s.cache id with
  | none => (none, s)
  | some a =>
    let (b, s1) := s.deepCopy a
    (some b, s1)

/-- The loop of `filter` (part_003 lines 284-290): for each cached entity,
apply the predicate to the cached record itself — the predicate receives
the reference and may hand back a mutated record, which lands at the cached
address — then push a deep copy of the (possibly mutated) entity when the
predicate returned true. -/
def filterLoop (f : JsObj → Bool × JsObj) :
    List (String × Nat) → HeapStore → List Nat × HeapStore
  | [], s => ([], s)
  | (_, a) :: rest, s =>
    let v := (mapGet s.heap a).getD []
    let (b, v1) := f v
    let s1 := s.write a v1
    if b then
      let (c, s2) := s1.deepCopy a
      let (tail, s3) := filterLoop f rest s2
      (c :: tail, s3)
    else filterLoop f rest s1

/-- `filter` at heap granularity (part_003 lines 275-297), for predicates
that do not throw. -/
def HeapStore.filter (s : HeapStore) (f : JsObj → Bool × JsObj) :
    List Nat × HeapStore :=
  filterLoop f s.cache s

/-- What a later read of `id` observes: the record currently stored at the
cache's address for `id`. -/
def HeapStore.view (s : HeapStore) (id : String) : Option JsObj :=
  (mapGet s.cache id).bind (fun a => mapGet s.heap a)

/-- The loop of `getAll` (part_003 lines 261-263):
`Array.from(this.data.values()).map(entity => JSON.parse(JSON.stringify(entity)))`
— a deep copy of every cached entity, in cache order. -/
def getAllLoop : List (String × Nat) → HeapStore → List Nat × HeapStore
  | [], s => ([], s)
  | (_, a) :: rest, s =>
    let (b, s1) := s.deepCopy a
    let (tail, s2) := getAllLoop rest s1
    (b :: tail, s2)

/-- `getAll` at heap granularity (part_003 lines 257-264): the caller
receives fresh copies of every cached record; the cache is untouched. -/
def HeapStore.getAll (s : HeapStore) : List Nat × HeapStore :=
  getAllLoop s.cache s

/-- `create` at heap granularity (part_003 lines 152-170): on a fresh id,
deep-copy the caller's record (`storedData`, line 161), build the fresh
object `newEntity` spreading the copy after the id field (line 162), point
the cache at it (line 163), and return the address of a further deep copy
(line 169).  At record granularity the intermediate `storedData` copy
shares no address with anything and is absorbed into the `newEntity`
allocation.  A duplicate id throws (modelled `none`); persistence belongs
to the value-level `Store` model, not to this aliasing model. -/
def HeapStore.create (s : HeapStore) (id : String) (dataAddr : Nat) :
    Option Nat × HeapStore :=
  if mapHas s.cache id then (none, s)
  else
    let v := (mapGet s.heap dataAddr).getD []
    let (na, s1) := s.alloc (spreadWithId id v)
    let s2 : HeapStore := { s1 with cache := mapSet s1.cache id na }
    let (ra, s3) := s2.deepCopy na
    (some ra, s3)

/-- `update` at heap granularity (part_003 lines 204-223): like `create`
but requiring the id to be present (`none` models the not-found throw);
the cache entry is repointed to the fresh `updatedEntity` (lines 213-216)
and the caller receives the address of a further deep copy (line 222). -/
def HeapStore.update (s : HeapStore) (id : String) (dataAddr : Nat) :
    Option Nat × HeapStore :=
  if mapHas s.cache id then
    let v := (mapGet s.heap dataAddr).getD []
    let (na, s1) := s.alloc (spreadWithId id v)
    let s2 : HeapStore := { s1 with cache := mapSet s1.cache id na }
    let (ra, s3) := s2.deepCopy na
    (some ra, s3)
  else (none, s)

/-! ### Association-list lemmas -/

theorem mapGet_mapSet_self {κ α : Type} [DecidableEq κ] (m : List (κ × α)) (k : κ) (v : α) :
    mapGet (mapSet m k v) k = some v := by
  induction m with
  | nil => simp [mapSet, mapGet]
  | cons hd tl ih =>
    by_cases h : hd.1 = k
    · simp [mapSet, mapGet, h]
    · simpa [mapSet, mapGet, h] using ih

theorem mapGet_mapSet_ne {κ α : Type} [DecidableEq κ] (m : List (κ × α)) (k k' : κ) (v : α)
    (h : k' ≠ k) : mapGet (mapSet m k v) k' = mapGet m k' := by
  induction m with
  | nil => simp [mapSet, mapGet, Ne.symm h]
  | cons hd tl ih =>
    by_cases hk : hd.1 = k
    · simp [mapSet, mapGet, hk, h, Ne.symm h]
    · by_cases hk' : hd.1 = k'
      · simp [mapSet, mapGet, hk, hk', h]
      · simpa [mapSet, mapGet, hk, hk'] using ih

theorem mapGet_eq_none_of_not_has {κ α : Type} [DecidableEq κ] (m : List (κ × α)) (k : κ)
    (h : mapHas m k = false) : mapGet m k = none := by
  unfold mapHas at h
  cases hm : mapGet m k with
  | none => rfl
  | some v => rw [hm] at h; simp at h

theorem mapGet_eq_none_of_not_mem {κ α : Type} [DecidableEq κ] (m : List (κ × α)) (k : κ)
    (h : k ∉ m.map Prod.fst) : mapGet m k = none := by
  induction m with
  | nil => rfl
  | cons hd tl ih =>
    simp only [List.map_cons, List.mem_cons, not_or] at h
    have h1 : ¬ hd.1 = k := fun he => h.1 he.symm
    simp only [mapGet, if_neg h1]
    exact ih h.2

theorem mapGet_mapDelete_self {κ α : Type} [DecidableEq κ] (m : List (κ × α)) (k : κ)
    (h : (m.map Prod.fst).Nodup) : mapGet (mapDelete m k) k = none := by
  induction m with
  | nil => rfl
  | cons hd tl ih =>
    simp only [List.map_cons, List.nodup_cons] at h
    by_cases hk : hd.1 = k
    · simp only [mapDelete, if_pos hk]
      exact mapGet_eq_none_of_not_mem tl k (hk ▸ h.1)
    · simp only [mapDelete, if_neg hk, mapGet, if_neg hk]
      exact ih h.2

/-! ### Tally-array lemmas -/

theorem getD_set_self (x : Nat) : ∀ (t : List Nat) (i : Nat), i < t.length →
    (t.set i x).getD i 0 = x
  | [], i, h => absurd h (by simp)
  | _ :: _, 0, _ => rfl
  | _ :: t, i + 1, h => getD_set_self x t i (by simpa using h)

theorem getD_set_ne (x : Nat) : ∀ (t : List Nat) (i j : Nat), i ≠ j →
    (t.set i x).getD j 0 = t.getD j 0
  | [], _, _, _ => by simp
  | _ :: _, 0, 0, h => absurd rfl h
  | _ :: _, 0, _ + 1, _ => rfl
  | _ :: _, _ + 1, 0, _ => rfl
  | _ :: t, i + 1, j + 1, h => getD_set_ne x t i j (fun he => h (by rw [he]))

theorem sum_set_getD_succ : ∀ (t : List Nat) (i : Nat), i < t.length →
    (t.set i (t.getD i 0 + 1)).sum = t.sum + 1
  | [], i, h => absurd h (by simp)
  | a :: t, 0, _ => by simp [List.sum_cons]; omega
  | a :: t, i + 1, h => by
    have := sum_set_getD_succ t i (by simpa using h)
    simp only [List.set, List.getD_cons_succ, List.sum_cons, this]
    omega

theorem length_voteCountsInc (t : List Nat) (i : Rat) :
    (voteCountsInc t i).length = t.length := by
  unfold voteCountsInc
  split <;> simp

/-- A rational equals the cast of a natural exactly when it is that integer. -/
theorem rat_eq_natCast_iff (v : Rat) (i : Nat) :
    v = (i : Rat) ↔ v.den = 1 ∧ v.num = (i : Int) := by
  constructor
  · rintro rfl
    exact ⟨Rat.den_natCast i, Rat.num_natCast i⟩
  · rintro ⟨hd, hn⟩
    have : (v.num : Rat) = v := by
      rw [← Rat.num_div_den v, hd]; push_cast; simp
    rw [← this, hn]; push_cast; rfl

theorem getD_voteCountsInc (t : List Nat) (v : Rat) (i : Nat) (h : i < t.length) :
    (voteCountsInc t v).getD i 0 = t.getD i 0 + (if v = (i : Rat) then 1 else 0) := by
  unfold voteCountsInc
  by_cases hg : v.den = 1 ∧ 0 ≤ v.num ∧ v.num < (t.length : Int)
  · rw [if_pos hg]
    by_cases hv : v = (i : Rat)
    · have hnum : v.num = (i : Int) := ((rat_eq_natCast_iff v i).mp hv).2
      have htn : v.num.toNat = i := by omega
      rw [htn, getD_set_self _ t i h, if_pos hv]
    · have hne : v.num.toNat ≠ i := by
        intro he
        exact hv ((rat_eq_natCast_iff v i).mpr ⟨hg.1, by omega⟩)
      rw [getD_set_ne _ t _ i hne, if_neg hv]
      omega
  · rw [if_neg hg]
    have hv : v ≠ (i : Rat) := by
      intro he
      rcases (rat_eq_natCast_iff v i).mp he with ⟨hd, hn⟩
      exact hg ⟨hd, by omega, by omega⟩
    rw [if_neg hv]
    omega

theorem sum_voteCountsInc (t : List Nat) (v : Rat) :
    (voteCountsInc t v).sum =
      t.sum + (if v.den = 1 ∧ 0 ≤ v.num ∧ v.num < (t.length : Int) then 1 else 0) := by
  unfold voteCountsInc
  by_cases hg : v.den = 1 ∧ 0 ≤ v.num ∧ v.num < (t.length : Int)
  · rw [if_pos hg, if_pos hg, sum_set_getD_succ t _ (by omega)]
  · rw [if_neg hg, if_neg hg]
    omega

/-- When a vote value fails the numeric range guard of the first
`getPollResults` variant, bumping the tally array is a no-op. -/
theorem voteCountsInc_out_of_range (t : List Nat) (v : Rat)
    (h : ¬ (0 ≤ v ∧ v < (t.length : Rat))) : voteCountsInc t v = t := by
  unfold voteCountsInc
  rw [if_neg]
  rintro ⟨hd, hn0, hnlt⟩
  refine h ⟨?_, ?_⟩
  · exact Rat.num_nonneg.mp hn0
  · have hv : (v.num : Rat) = v := by
      rw [← Rat.num_div_den v, hd]; push_cast; simp
    calc v = (v.num : Rat) := hv.symm
    _ < (t.length : Rat) := by exact_mod_cast hnlt

/-- The tally array after the counting loop, shared by both `getPollResults`
variants: slot changes are exactly the guarded increments. -/
def voteTally (options : List String) (vs : List (String × Rat)) : List Nat :=
  vs.foldl (fun u uv => voteCountsInc u uv.2) (List.replicate options.length 0)

theorem foldl_inc_length : ∀ (vs : List (String × Rat)) (t : List Nat),
    (vs.foldl (fun u uv => voteCountsInc u uv.2) t).length = t.length
  | [], _ => rfl
  | uv :: vs, t => by
    rw [List.foldl_cons, foldl_inc_length vs, length_voteCountsInc]

theorem voteTally_length (options : List String) (vs : List (String × Rat)) :
    (voteTally options vs).length = options.length := by
  unfold voteTally
  rw [foldl_inc_length]
  simp

/-- The counting loop of the first `getPollResults` variant: its tally
component is the unguarded fold (the guard only excludes values on which the
bump is a no-op anyway) and its total counts the entries passing the numeric
range guard. -/
theorem foldl_tally_spec (N : Nat) : ∀ (vs : List (String × Rat)) (t : List Nat) (c : Nat),
    t.length = N →
    vs.foldl (fun (acc : List Nat × Nat) uv =>
        if 0 ≤ uv.2 ∧ uv.2 < (N : Rat) then (voteCountsInc acc.1 uv.2, acc.2 + 1) else acc)
      (t, c) =
    (vs.foldl (fun u uv => voteCountsInc u uv.2) t,
      c + vs.countP (fun uv => decide (0 ≤ uv.2 ∧ uv.2 < (N : Rat))))
  | [], t, c, _ => by simp
  | uv :: vs, t, c, ht => by
    rw [List.foldl_cons, List.foldl_cons, List.countP_cons]
    by_cases hg : 0 ≤ uv.2 ∧ uv.2 < (N : Rat)
    · rw [if_pos hg, foldl_tally_spec N vs _ (c + 1) (by rw [length_voteCountsInc]; exact ht)]
      refine Prod.ext rfl ?_
      simp only [decide_eq_true_eq]
      rw [if_pos hg]
      omega
    · rw [if_neg hg, foldl_tally_spec N vs t c ht,
        voteCountsInc_out_of_range t uv.2 (by rw [ht]; exact hg)]
      refine Prod.ext rfl ?_
      simp only [decide_eq_true_eq]
      rw [if_neg hg]
      omega

theorem foldl_inc_getD (i : Nat) : ∀ (vs : List (String × Rat)) (t : List Nat),
    i < t.length →
    (vs.foldl (fun u uv => voteCountsInc u uv.2) t).getD i 0 =
      t.getD i 0 + vs.countP (fun uv => decide (uv.2 = (i : Rat)))
  | [], t, _ => by simp
  | uv :: vs, t, h => by
    rw [List.foldl_cons, List.countP_cons,
      foldl_inc_getD i vs _ (by rw [length_voteCountsInc]; exact h),
      getD_voteCountsInc t uv.2 i h]
    simp only [decide_eq_true_eq]
    by_cases hv : uv.2 = (i : Rat)
    · rw [if_pos hv]
      omega
    · rw [if_neg hv]
      omega

theorem foldl_inc_sum (N : Nat) : ∀ (vs : List (String × Rat)) (t : List Nat),
    t.length = N →
    (vs.foldl (fun u uv => voteCountsInc u uv.2) t).sum =
      t.sum + vs.countP (fun uv => decide (uv.2.den = 1 ∧ 0 ≤ uv.2.num ∧ uv.2.num < (N : Int)))
  | [], t, _ => by simp
  | uv :: vs, t, ht => by
    rw [List.foldl_cons, List.countP_cons,
      foldl_inc_sum N vs _ (by rw [length_voteCountsInc]; exact ht),
      sum_voteCountsInc t uv.2, ht]
    simp only [decide_eq_true_eq]
    by_cases hg : uv.2.den = 1 ∧ 0 ≤ uv.2.num ∧ uv.2.num < (N : Int)
    · rw [if_pos hg]
      omega
    · rw [if_neg hg]
      omega

theorem voteTally_getD (options : List String) (vs : List (String × Rat)) (i : Nat)
    (h : i < options.length) :
    (voteTally options vs).getD i 0 = vs.countP (fun uv => decide (uv.2 = (i : Rat))) := by
  unfold voteTally
  rw [foldl_inc_getD i vs _ (by simpa using h)]
  rw [List.getD_eq_getElem _ _ (by simpa using h)]
  simp

theorem voteTally_sum (options : List String) (vs : List (String × Rat)) :
    (voteTally options vs).sum =
      vs.countP (fun uv =>
        decide (uv.2.den = 1 ∧ 0 ≤ uv.2.num ∧ uv.2.num < (options.length : Int))) := by
  unfold voteTally
  rw [foldl_inc_sum options.length vs _ (by simp)]
  simp

/-- Reading the whole tally back through the per-option pairing recovers the
tally itself. -/
theorem enum_map_getD (opts : List String) (t : List Nat) (h : t.length = opts.length) :
    opts.enum.map (fun p => t.getD p.1 0) = t := by
  apply List.ext_getElem
  · simp [h]
  · intro i h1 h2
    simp only [List.getElem_map, List.getElem_enum]
    exact List.getD_eq_getElem _ _ h2

theorem results_map_snd (opts : List String) (t : List Nat) (h : t.length = opts.length) :
    (opts.enum.map (fun p => (p.2, t.getD p.1 0))).map Prod.snd = t := by
  rw [List.map_map]
  exact enum_map_getD opts t h

theorem results_map_fst (opts : List String) (t : List Nat) :
    (opts.enum.map (fun p => (p.2, t.getD p.1 0))).map Prod.fst = opts := by
  rw [List.map_map]
  have : (Prod.fst ∘ fun p : Nat × String => (p.2, t.getD p.1 0)) = Prod.snd := rfl
  rw [this, List.enum_map_snd]

/-- The first `getPollResults` variant, in tally form. -/
theorem getPollResults_tally (ps : PollStore) (pid : String) (poll : Poll)
    (h : mapGet ps pid = some poll) :
    getPollResults ps pid = .ok ⟨pid, poll.question, poll.createdBy,
      poll.votes.countP (fun uv => decide (0 ≤ uv.2 ∧ uv.2 < (poll.options.length : Rat))),
      poll.options.enum.map (fun p => (p.2, (voteTally poll.options poll.votes).getD p.1 0))⟩ := by
  unfold getPollResults
  rw [h]
  simp only [foldl_tally_spec poll.options.length poll.votes
    (List.replicate poll.options.length 0) 0 (by simp), Nat.zero_add]
  rfl

/-- The second `getPollResults` variant, in tally form. -/
theorem getPollResultsV2_tally (ps : PollStore) (pid : String) (poll : Poll)
    (h : mapGet ps pid = some poll) :
    getPollResultsV2 ps pid = .ok ⟨pid, poll.question, poll.createdBy, poll.votes.length,
      poll.options.enum.map (fun p => (p.2, (voteTally poll.options poll.votes).getD p.1 0))⟩ := by
  unfold getPollResultsV2
  rw [h]
  rfl

/-! ### Claim C4 -/

/-- C4: creating a fresh id succeeds and a subsequent `getById` returns the
record built by spreading the payload over the id field; an id absent from
the store reads as the absence marker, and so does an id just deleted. -/
theorem C4_create_getById_roundtrip (s : Store) (id id2 : String) (data : JsObj)
    (h1 : mapHas s.cache id = false)
    (h2 : mapHas s.cache id2 = true)
    (h3 : (s.cache.map Prod.fst).Nodup) :
    (Store.create true s id data).1 = .ok (spreadWithId id data)
    ∧ Store.getById (Store.create true s id data).2 id = some (spreadWithId id data)
    ∧ Store.getById s id = none
    ∧ (Store.delete true s id2).1 = .ok true
    ∧ Store.getById (Store.delete true s id2).2 id2 = none := by
  refine ⟨?_, ?_, ?_, ?_, ?_⟩
  · simp [Store.create, h1, saveToFile]
  · simp [Store.create, h1, saveToFile, Store.getById, mapGet_mapSet_self]
  · exact mapGet_eq_none_of_not_has s.cache id h1
  · simp [Store.delete, h2, saveToFile]
  · simp [Store.delete, h2, saveToFile, Store.getById]
    exact mapGet_mapDelete_self s.cache id2 h3

/-- Witness for C4 at a one-record store. -/
theorem C4_create_getById_roundtrip_witness :
    mapHas ([("u1", [("username", JsVal.strV "u1")])] : List (String × JsObj)) "p9" = false
    ∧ mapHas ([("u1", [("username", JsVal.strV "u1")])] : List (String × JsObj)) "u1" = true
    ∧ (Store.create true ⟨[("u1", [("username", JsVal.strV "u1")])],
        [[("username", JsVal.strV "u1")]]⟩ "p9" [("question", JsVal.strV "Q")]).1
        = .ok [("id", JsVal.strV "p9"), ("question", JsVal.strV "Q")]
    ∧ Store.getById (Store.create true ⟨[("u1", [("username", JsVal.strV "u1")])],
        [[("username", JsVal.strV "u1")]]⟩ "p9" [("question", JsVal.strV "Q")]).2 "p9"
        = some [("id", JsVal.strV "p9"), ("question", JsVal.strV "Q")]
    ∧ Store.getById (⟨[("u1", [("username", JsVal.strV "u1")])],
        [[("username", JsVal.strV "u1")]]⟩ : Store) "p9" = none
    ∧ Store.getById (Store.delete true ⟨[("u1", [("username", JsVal.strV "u1")])],
        [[("username", JsVal.strV "u1")]]⟩ "u1").2 "u1" = none := by
  have h := C4_create_getById_roundtrip
    ⟨[("u1", [("username", JsVal.strV "u1")])], [[("username", JsVal.strV "u1")]]⟩
    "p9" "u1" [("question", JsVal.strV "Q")] rfl rfl (by simp)
  exact ⟨rfl, rfl, h.1, h.2.1, h.2.2.1, h.2.2.2.2⟩

/-! ### Claim C5 -/

/-- A one-poll store for exercising duplicate creation. -/
def store5 : Store :=
  ⟨[("p1", [("id", JsVal.strV "p1"), ("question", JsVal.strV "Q")])],
    [[("id", JsVal.strV "p1"), ("question", JsVal.strV "Q")]]⟩

/-- C5: on a duplicate id, the part_003 `create` fails with the duplicate-key
error and leaves the store untouched, but the second `create` variant
(JsonFilePollStorage.js lines 452-467) instead raises a `ReferenceError`
for the unbound identifier `username` while building its error message —
still before any mutation, so the store is also untouched there. -/
theorem C5_duplicate_create_eval :
    Store.create true store5 "p1" [("question", JsVal.strV "Q2")]
      = (.error (.duplicateKey "p1"), store5)
    ∧ Store.createV2 true store5 "p1" [("question", JsVal.strV "Q2")]
      = (.error (.referenceError "username"), store5)
    ∧ StorageError.referenceError "username" ≠ .duplicateKey "p1" := by
  refine ⟨rfl, rfl, by simp⟩

/-! ### Claim C7 -/

/-- A one-record store for exercising update. -/
def store7 : Store :=
  ⟨[("p1", [("id", JsVal.strV "p1"), ("question", JsVal.strV "Old")])],
    [[("id", JsVal.strV "p1"), ("question", JsVal.strV "Old")]]⟩

/-- C7: `update` does fail with the not-found error on an absent id, but the
stored record's `id` is NOT kept equal to the id argument when the payload
carries its own `id` field: the spread `\x7b id: stringId, ...storedData \x7d`
lets the payload field win, so updating "p1" with a payload whose id is "p2"
stores and returns a record whose `id` field is "p2" under the cache key
"p1" — against the code's own comment at part_003 line 214. -/
theorem C7_update_payload_id_overrides :
    (Store.update true store7 "zz" [("question", JsVal.strV "New")]).1
      = .error (.notFound "zz")
    ∧ (Store.update true store7 "p1" [("id", JsVal.strV "p2"), ("question", JsVal.strV "New")]).1
      = .ok [("id", JsVal.strV "p2"), ("question", JsVal.strV "New")]
    ∧ (Store.update true store7 "p1"
        [("id", JsVal.strV "p2"), ("question", JsVal.strV "New")]).2.cache
      = [("p1", [("id", JsVal.strV "p2"), ("question", JsVal.strV "New")])]
    ∧ mapGet ([("id", JsVal.strV "p2"), ("question", JsVal.strV "New")] : JsObj) "id"
      = some (JsVal.strV "p2")
    ∧ "p2" ≠ "p1" := by
  refine ⟨rfl, rfl, rfl, rfl, by decide⟩

/-! ### Claim C8 -/

/-- A one-record store for exercising persistence failure. -/
def store8 : Store :=
  ⟨[("p1", [("id", JsVal.strV "p1"), ("question", JsVal.strV "Q")])],
    [[("id", JsVal.strV "p1"), ("question", JsVal.strV "Q")]]⟩

/-- C8: when the durable write fails, `create` throws the persistence
failure but has already inserted the new record into the in-memory cache: a
later `getById` observes the record that was never persisted, and the cache
(two records) diverges from the durable file (one record). -/
theorem C8_persist_failure_cache_diverges :
    (Store.create false store8 "q" [("question", JsVal.strV "R")]).1
      = .error .persistenceFailure
    ∧ (Store.create false store8 "q" [("question", JsVal.strV "R")]).2.cache
      = [("p1", [("id", JsVal.strV "p1"), ("question", JsVal.strV "Q")]),
          ("q", [("id", JsVal.strV "q"), ("question", JsVal.strV "R")])]
    ∧ (Store.create false store8 "q" [("question", JsVal.strV "R")]).2.file
      = [[("id", JsVal.strV "p1"), ("question", JsVal.strV "Q")]]
    ∧ Store.getById (Store.create false store8 "q" [("question", JsVal.strV "R")]).2 "q"
      = some [("id", JsVal.strV "q"), ("question", JsVal.strV "R")]
    ∧ ((Store.create false store8 "q" [("question", JsVal.strV "R")]).2.cache.length = 2
        ∧ (Store.create false store8 "q" [("question", JsVal.strV "R")]).2.file.length = 1) := by
  refine ⟨rfl, rfl, rfl, rfl, rfl, rfl⟩

/-! ### Claim C1 -/

/-- The rational 3/2, a non-integer JS number usable as an `optionIndex`. -/
def threeHalves : Rat := Rat.mk' 3 2 (by decide) (by decide)

/-- A store whose poll "p1" already carries a vote by "alice". -/
def pollStore1 : PollStore :=
  [("p1", ⟨"p1", "Color?", ["Red", "Blue"], "carol", [("alice", 0)]⟩)]

/-- C1 counterexample: in the first `addVote` variant the integer check at
line 122 runs before the duplicate check at line 127, so a second vote by
"alice" with the non-integer index 3/2 fails with the not-an-integer error,
not with the duplicate-vote error the claim requires for every option
index. -/
theorem C1_counterexample :
    addVote pollStore1 "p1" "alice" threeHalves
      = (.error .invalidOptionNotInteger, pollStore1)
    ∧ Except.error (α := Poll) StorageError.invalidOptionNotInteger
      ≠ .error (.duplicateVote "alice" "p1") := by
  refine ⟨rfl, by simp⟩

/-- C1 amended: a second `addVote` by a user already in `votes` always
fails and leaves the store unchanged (so the first recorded value is
retained); the failure is `DuplicateVote` for every integer option index
(valid or not) in the first variant and for every option index whatsoever
in the second variant, but the first variant reports the not-an-integer
error instead when the index is not an integer. -/
theorem C1_second_vote_rejected (ps : PollStore) (pid : String) (poll : Poll)
    (u : String) (i : Rat)
    (hp : mapGet ps pid = some poll)
    (hu : mapHas poll.votes u = true)
    (ht : trimEmpty u = false) :
    (addVote ps pid u i).2 = ps
    ∧ (i.den = 1 → addVote ps pid u i = (.error (.duplicateVote u pid), ps))
    ∧ (i.den ≠ 1 → addVote ps pid u i = (.error .invalidOptionNotInteger, ps))
    ∧ addVoteV2 ps pid u i = (.error (.duplicateVote u pid), ps) := by
  have hv2 : addVoteV2 ps pid u i = (.error (.duplicateVote u pid), ps) := by
    unfold addVoteV2
    simp only [hp, if_pos hu]
  by_cases hd : i.den = 1
  · have h1 : addVote ps pid u i = (.error (.duplicateVote u pid), ps) := by
      unfold addVote addVotePrepare
      simp only [hp, ht, Bool.false_eq_true, if_false, hd, ne_eq, not_true_eq_false, if_pos hu]
    exact ⟨by rw [h1], fun _ => h1, fun h => absurd hd h, hv2⟩
  · have h1 : addVote ps pid u i = (.error .invalidOptionNotInteger, ps) := by
      unfold addVote addVotePrepare
      simp only [hp, ht, Bool.false_eq_true, if_false, hd, ne_eq, not_false_eq_true, if_true]
    exact ⟨by rw [h1], fun h => absurd h hd, fun _ => h1, hv2⟩

/-- Witness for C1 amended: a second vote by "alice" with the integer index
0 fails with the duplicate-vote error in both variants, store unchanged. -/
theorem C1_second_vote_rejected_witness :
    mapGet pollStore1 "p1"
      = some ⟨"p1", "Color?", ["Red", "Blue"], "carol", [("alice", 0)]⟩
    ∧ mapHas ([("alice", (0 : Rat))]) "alice" = true
    ∧ trimEmpty "alice" = false
    ∧ addVote pollStore1 "p1" "alice" 0
      = (.error (.duplicateVote "alice" "p1"), pollStore1)
    ∧ addVoteV2 pollStore1 "p1" "alice" 0
      = (.error (.duplicateVote "alice" "p1"), pollStore1) := by
  have h := C1_second_vote_rejected pollStore1 "p1"
    ⟨"p1", "Color?", ["Red", "Blue"], "carol", [("alice", 0)]⟩ "alice" 0
    rfl rfl (by decide)
  exact ⟨rfl, rfl, by decide, h.2.1 rfl, h.2.2.2⟩

/-! ### Claim C2 -/

/-- A fresh two-option poll with no votes. -/
def poll2 : Poll := ⟨"p1", "Color?", ["Red", "Blue"], "carol", []⟩

/-- The store holding only `poll2`. -/
def pollStore2 : PollStore := [("p1", poll2)]

/-- C2: the lost-update interleaving.  Two `addVote` calls for the distinct
users "alice" and "bob" both run their read-and-check phase against the
initial store (both pass: neither vote is committed yet), then commit in
turn; the later `update` writes the poll copy from its own earlier read, so
the final record holds only "bob"'s vote and "alice"'s committed vote is
silently overwritten. -/
theorem C2_lost_update_interleaving :
    addVotePrepare pollStore2 "p1" "alice" 0
      = .ok ⟨"p1", "Color?", ["Red", "Blue"], "carol", [("alice", 0)]⟩
    ∧ addVotePrepare pollStore2 "p1" "bob" 1
      = .ok ⟨"p1", "Color?", ["Red", "Blue"], "carol", [("bob", 1)]⟩
    ∧ (addVoteCommit
        (addVoteCommit pollStore2 "p1"
          ⟨"p1", "Color?", ["Red", "Blue"], "carol", [("alice", 0)]⟩).2
        "p1" ⟨"p1", "Color?", ["Red", "Blue"], "carol", [("bob", 1)]⟩).2
      = [("p1", ⟨"p1", "Color?", ["Red", "Blue"], "carol", [("bob", 1)]⟩)]
    ∧ mapHas ([("bob", (1 : Rat))]) "alice" = false
    ∧ mapHas ([("bob", (1 : Rat))]) "bob" = true := by
  refine ⟨rfl, rfl, rfl, rfl, rfl⟩

/-! ### Claim C6 -/

/-- The rational 1/2, a non-integer JS number inside the range of a
two-option poll. -/
def half : Rat := Rat.mk' 1 2 (by decide) (by decide)

/-- A store holding one two-option poll with no votes. -/
def pollStore6 : PollStore :=
  [("p1", ⟨"p1", "Color?", ["Red", "Blue"], "carol", []⟩)]

/-- C6 counterexample: the second `addVote` variant has no integer check, so
a fresh user voting with the non-integer index 1/2 on a two-option poll
SUCCEEDS — the call returns the updated poll and stores 1/2 in `votes` —
where the claim requires an `InvalidOptionIndex` failure without
mutation. -/
theorem C6_counterexample :
    addVoteV2 pollStore6 "p1" "bob" half
      = (.ok ⟨"p1", "Color?", ["Red", "Blue"], "carol", [("bob", half)]⟩,
          [("p1", ⟨"p1", "Color?", ["Red", "Blue"], "carol", [("bob", half)]⟩)])
    ∧ half.den ≠ 1 := by
  refine ⟨rfl, by decide⟩

/-- C6 amended: for a fresh user, the first `addVote` variant rejects every
option index that is not an integer in range, without mutating the store —
with the not-an-integer error for non-integers and the out-of-range error
for integer indices below 0 or at/above N; the second variant performs only
the numeric range check, so it likewise rejects indices below 0 or at/above
N without mutation, but accepts any number inside the range (the
counterexample shows a non-integer being accepted and stored). -/
theorem C6_invalid_index_rejected (ps : PollStore) (pid : String) (poll : Poll)
    (u : String) (i : Rat)
    (hp : mapGet ps pid = some poll)
    (hu : mapHas poll.votes u = false)
    (ht : trimEmpty u = false) :
    (i.den ≠ 1 → addVote ps pid u i = (.error .invalidOptionNotInteger, ps))
    ∧ (i < 0 ∨ (poll.options.length : Rat) ≤ i → i.den = 1 →
        addVote ps pid u i = (.error (.invalidOptionIndex i), ps))
    ∧ (i < 0 ∨ (poll.options.length : Rat) ≤ i →
        addVoteV2 ps pid u i = (.error (.invalidOptionIndex i), ps)) := by
  refine ⟨?_, ?_, ?_⟩
  · intro hd
    unfold addVote addVotePrepare
    simp only [hp, ht, Bool.false_eq_true, if_false, hd, ne_eq, not_false_eq_true, if_true]
  · intro hr hd
    unfold addVote addVotePrepare
    simp only [hp, ht, Bool.false_eq_true, if_false, hd, ne_eq, not_true_eq_false,
      hu, if_pos hr]
  · intro hr
    unfold addVoteV2
    simp only [hp, hu, Bool.false_eq_true, if_false, if_pos hr]

/-- Witness for C6 amended: on a two-option poll, a fresh user's vote with
index 2 (= N) is rejected with the out-of-range error by both variants and
the store is unchanged. -/
theorem C6_invalid_index_rejected_witness :
    mapGet pollStore6 "p1" = some ⟨"p1", "Color?", ["Red", "Blue"], "carol", []⟩
    ∧ mapHas ([] : List (String × Rat)) "bob" = false
    ∧ trimEmpty "bob" = false
    ∧ ((2 : Rat) < 0 ∨ ((2 : Nat) : Rat) ≤ 2)
    ∧ addVote pollStore6 "p1" "bob" 2
      = (.error (.invalidOptionIndex 2), pollStore6)
    ∧ addVoteV2 pollStore6 "p1" "bob" 2
      = (.error (.invalidOptionIndex 2), pollStore6) := by
  have h := C6_invalid_index_rejected pollStore6 "p1"
    ⟨"p1", "Color?", ["Red", "Blue"], "carol", []⟩ "bob" 2 rfl rfl (by decide)
  exact ⟨rfl, rfl, by decide, by decide,
    h.2.1 (by decide) rfl, h.2.2 (by decide)⟩

/-! ### Claim C3 -/

/-- An index appearing in an enumerated list is below the list's length. -/
theorem fst_lt_of_mem_enum {α : Type} {p : Nat × α} {l : List α} (h : p ∈ l.enum) :
    p.1 < l.length := by
  obtain ⟨i, hi, he⟩ := List.mem_iff_getElem.mp h
  rw [List.getElem_enum] at he
  rw [← he]
  simpa using hi

/-- A store holding a two-option poll with one out-of-range vote entry. -/
def pollStore3 : PollStore :=
  [("p1", ⟨"p1", "Q?", ["A", "B"], "carol", [("u", 5)]⟩)]

/-- C3 counterexample: on the cited second `getPollResults` variant, a poll
with the single anomalous vote entry `u ↦ 5` over two options yields
`totalVotes = 1` (the entry is skipped by the tally but still counted by
`Object.keys(votes).length`), while the claim requires `totalVotes` to be
the count of valid tallied entries, which is 0 here. -/
theorem C3_counterexample :
    getPollResultsV2 pollStore3 "p1" = .ok ⟨"p1", "Q?", "carol", 1, [("A", 0), ("B", 0)]⟩
    ∧ (([("u", (5 : Rat))]).countP
        (fun uv => decide (0 ≤ uv.2 ∧ uv.2 < ((2 : Nat) : Rat)))) = 0
    ∧ (1 : Nat) ≠ 0 := by
  refine ⟨rfl, rfl, by decide⟩

/-- C3 amended: the first `getPollResults` variant behaves as claimed — one
`(option, votes)` pair per option in option order, each slot counting
exactly the vote entries equal to its index, out-of-range entries skipped
rather than crashing, and `totalVotes` the count of entries passing the
numeric range guard (not `votes.size`).  The second variant produces the
same per-option results without crashing, but its `totalVotes` is the
number of vote entries, counting skipped anomalies. -/
theorem C3_results_characterized (ps : PollStore) (pid : String) (poll : Poll)
    (hp : mapGet ps pid = some poll) :
    getPollResults ps pid = .ok ⟨pid, poll.question, poll.createdBy,
      poll.votes.countP (fun uv => decide (0 ≤ uv.2 ∧ uv.2 < (poll.options.length : Rat))),
      poll.options.enum.map (fun p =>
        (p.2, poll.votes.countP (fun uv => decide (uv.2 = (p.1 : Rat)))))⟩
    ∧ getPollResultsV2 ps pid = .ok ⟨pid, poll.question, poll.createdBy, poll.votes.length,
      poll.options.enum.map (fun p =>
        (p.2, poll.votes.countP (fun uv => decide (uv.2 = (p.1 : Rat)))))⟩ := by
  have hres : poll.options.enum.map
      (fun p => (p.2, (voteTally poll.options poll.votes).getD p.1 0))
      = poll.options.enum.map (fun p =>
        (p.2, poll.votes.countP (fun uv => decide (uv.2 = (p.1 : Rat))))) := by
    apply List.map_congr_left
    intro p hpmem
    rw [voteTally_getD _ _ _ (fst_lt_of_mem_enum hpmem)]
  have h1 := getPollResults_tally ps pid poll hp
  have h2 := getPollResultsV2_tally ps pid poll hp
  rw [hres] at h1 h2
  exact ⟨h1, h2⟩

/-- Witness for C3 amended at the spec §8 example: options Red/Blue with
votes alice ↦ 0, bob ↦ 1, carol ↦ 0 give totals 3 and tallies 2 and 1. -/
theorem C3_results_characterized_witness :
    mapGet ([("p1", (⟨"p1", "Color?", ["Red", "Blue"], "alice",
        [("alice", 0), ("bob", 1), ("carol", 0)]⟩ : Poll))]) "p1"
      = some ⟨"p1", "Color?", ["Red", "Blue"], "alice",
        [("alice", 0), ("bob", 1), ("carol", 0)]⟩
    ∧ getPollResults ([("p1", (⟨"p1", "Color?", ["Red", "Blue"], "alice",
        [("alice", 0), ("bob", 1), ("carol", 0)]⟩ : Poll))]) "p1"
      = .ok ⟨"p1", "Color?", "alice", 3, [("Red", 2), ("Blue", 1)]⟩
    ∧ getPollResultsV2 ([("p1", (⟨"p1", "Color?", ["Red", "Blue"], "alice",
        [("alice", 0), ("bob", 1), ("carol", 0)]⟩ : Poll))]) "p1"
      = .ok ⟨"p1", "Color?", "alice", 3, [("Red", 2), ("Blue", 1)]⟩ := by
  have h := C3_results_characterized
    ([("p1", (⟨"p1", "Color?", ["Red", "Blue"], "alice",
        [("alice", 0), ("bob", 1), ("carol", 0)]⟩ : Poll))]) "p1"
    ⟨"p1", "Color?", ["Red", "Blue"], "alice",
        [("alice", 0), ("bob", 1), ("carol", 0)]⟩ rfl
  refine ⟨rfl, ?_, ?_⟩
  · rw [h.1]; rfl
  · rw [h.2]; rfl

/-! ### Claim C10 -/

/-- A rational with denominator one is the cast of its numerator. -/
theorem rat_num_cast_of_den_one (v : Rat) (hd : v.den = 1) : ((v.num : Rat)) = v := by
  rw [← Rat.num_div_den v, hd]
  push_cast
  simp

/-- A store holding a two-option poll whose single vote value is the
non-integer number 1/2. -/
def pollStore10 : PollStore :=
  [("p1", ⟨"p1", "Q?", ["A", "B"], "carol", [("u", half)]⟩)]

/-- C10 counterexample: on the first `getPollResults` variant, a poll whose
votes map assigns the number 1/2 to user "u" passes the numeric range guard
(so `totalVotes = 1`) but the bump `voteCounts[0.5]++` lands outside every
slot, so the per-option results are all zero and their sum 0 differs from
`totalVotes` — the returned results object is not internally consistent. -/
theorem C10_counterexample :
    getPollResults pollStore10 "p1" = .ok ⟨"p1", "Q?", "carol", 1, [("A", 0), ("B", 0)]⟩
    ∧ (([("A", (0 : Nat)), ("B", 0)]).map Prod.snd).sum ≠ 1 := by
  refine ⟨rfl, by decide⟩

/-- C10 amended: for a stored poll whose votes map assigns to each username
an INTEGER in `[0, options.length)` (the §3 invariant), both
`getPollResults` variants return internally consistent results: the
per-option tallies are naturals summing exactly to `totalVotes`. -/
theorem C10_results_consistent (ps : PollStore) (pid : String) (poll : Poll)
    (hp : mapGet ps pid = some poll)
    (hinv : ∀ uv ∈ poll.votes,
      uv.2.den = 1 ∧ 0 ≤ uv.2 ∧ uv.2 < (poll.options.length : Rat)) :
    (∃ r, getPollResults ps pid = .ok r ∧ (r.results.map Prod.snd).sum = r.totalVotes)
    ∧ (∃ r, getPollResultsV2 ps pid = .ok r
        ∧ (r.results.map Prod.snd).sum = r.totalVotes) := by
  have hsum : ((poll.options.enum.map (fun p =>
      (p.2, (voteTally poll.options poll.votes).getD p.1 0))).map Prod.snd).sum
      = (voteTally poll.options poll.votes).sum := by
    rw [results_map_snd _ _ (voteTally_length poll.options poll.votes)]
  have hint : (voteTally poll.options poll.votes).sum = poll.votes.length := by
    rw [voteTally_sum]
    apply List.countP_eq_length.mpr
    intro uv huv
    obtain ⟨hd, h0, hN⟩ := hinv uv huv
    have hc : ((uv.2.num : Rat)) = uv.2 := rat_num_cast_of_den_one uv.2 hd
    simp only [decide_eq_true_eq]
    refine ⟨hd, ?_, ?_⟩
    · exact Rat.num_nonneg.mpr h0
    · have : ((uv.2.num : Rat)) < ((poll.options.length : Int) : Rat) := by
        rw [hc]; exact_mod_cast hN
      exact_mod_cast this
  have hrng : poll.votes.countP
      (fun uv => decide (0 ≤ uv.2 ∧ uv.2 < (poll.options.length : Rat)))
      = poll.votes.length := by
    apply List.countP_eq_length.mpr
    intro uv huv
    obtain ⟨_, h0, hN⟩ := hinv uv huv
    simp only [decide_eq_true_eq]
    exact ⟨h0, hN⟩
  constructor
  · exact ⟨_, getPollResults_tally ps pid poll hp, by
      simp only [hsum, hint, hrng]⟩
  · exact ⟨_, getPollResultsV2_tally ps pid poll hp, by
      simp only [hsum, hint]⟩

/-- Witness for C10 amended at the spec §8 example poll. -/
theorem C10_results_consistent_witness :
    mapGet ([("p1", (⟨"p1", "Color?", ["Red", "Blue"], "alice",
        [("alice", 0), ("bob", 1), ("carol", 0)]⟩ : Poll))]) "p1"
      = some ⟨"p1", "Color?", ["Red", "Blue"], "alice",
        [("alice", 0), ("bob", 1), ("carol", 0)]⟩
    ∧ (∀ uv ∈ ([("alice", (0 : Rat)), ("bob", 1), ("carol", 0)]),
        uv.2.den = 1 ∧ 0 ≤ uv.2 ∧ uv.2 < ((["Red", "Blue"].length : Nat) : Rat))
    ∧ ((∃ r, getPollResults ([("p1", (⟨"p1", "Color?", ["Red", "Blue"], "alice",
          [("alice", 0), ("bob", 1), ("carol", 0)]⟩ : Poll))]) "p1" = .ok r
        ∧ (r.results.map Prod.snd).sum = r.totalVotes)
      ∧ (∃ r, getPollResultsV2 ([("p1", (⟨"p1", "Color?", ["Red", "Blue"], "alice",
          [("alice", 0), ("bob", 1), ("carol", 0)]⟩ : Poll))]) "p1" = .ok r
        ∧ (r.results.map Prod.snd).sum = r.totalVotes)) := by
  refine ⟨rfl, by decide, ?_⟩
  exact C10_results_consistent _ "p1"
    ⟨"p1", "Color?", ["Red", "Blue"], "alice",
      [("alice", 0), ("bob", 1), ("carol", 0)]⟩ rfl (by decide)

/-! ### Claim C9 -/

/-- Reading the key at the head of an association list. -/
theorem mapGet_cons_self {κ α : Type} [DecidableEq κ] (k : κ) (v : α) (rest : List (κ × α)) :
    mapGet ((k, v) :: rest) k = some v := by
  simp [mapGet]

/-- A successful lookup pins down a member of the association list. -/
theorem mem_of_mapGet_eq_some {κ α : Type} [DecidableEq κ] :
    ∀ (m : List (κ × α)) (k : κ) (v : α), mapGet m k = some v → (k, v) ∈ m
  | [], _, _, h => by simp [mapGet] at h
  | (k1, v1) :: rest, k, v, h => by
    simp only [mapGet] at h
    by_cases hk : k1 = k
    · rw [if_pos hk] at h
      injection h with h
      subst hk
      subst h
      exact List.mem_cons_self _ _
    · rw [if_neg hk] at h
      exact List.mem_cons_of_mem _ (mem_of_mapGet_eq_some rest k v h)

/-- Membership after a map insert: the inserted pair or an original one. -/
theorem mem_mapSet {κ α : Type} [DecidableEq κ] :
    ∀ (m : List (κ × α)) (k : κ) (v : α) (p : κ × α),
      p ∈ mapSet m k v → p = (k, v) ∨ p ∈ m
  | [], k, v, p, h => by
    simp only [mapSet, List.mem_singleton] at h
    exact Or.inl h
  | (k1, v1) :: rest, k, v, p, h => by
    simp only [mapSet] at h
    by_cases hk : k1 = k
    · rw [if_pos hk] at h
      rcases List.mem_cons.mp h with h | h
      · exact Or.inl h
      · exact Or.inr (List.mem_cons_of_mem _ h)
    · rw [if_neg hk] at h
      rcases List.mem_cons.mp h with h | h
      · exact Or.inr (h ▸ List.mem_cons_self _ _)
      · rcases mem_mapSet rest k v p h with h | h
        · exact Or.inl h
        · exact Or.inr (List.mem_cons_of_mem _ h)

/-- Writing through an address no cache entry points at leaves every later
read unchanged. -/
theorem view_write_eq_of_notin_cache (t : HeapStore) (b : Nat) (w : JsObj)
    (hb : ∀ p ∈ t.cache, p.2 ≠ b) (id2 : String) :
    HeapStore.view (HeapStore.write t b w) id2 = HeapStore.view t id2 := by
  unfold HeapStore.view HeapStore.write
  cases hc : mapGet t.cache id2 with
  | none => rfl
  | some a =>
    simp only [Option.some_bind]
    exact mapGet_mapSet_ne _ _ _ _ (hb (id2, a) (mem_of_mapGet_eq_some _ _ _ hc))

/-- A state with the same cache and an unchanged heap below the allocation
mark shows every id the same record. -/
theorem view_eq_of_extends (s t : HeapStore) (hc : t.cache = s.cache)
    (hWF : s.WF)
    (hext : ∀ a, a < s.next → mapGet t.heap a = mapGet s.heap a)
    (id2 : String) : HeapStore.view t id2 = HeapStore.view s id2 := by
  unfold HeapStore.view
  rw [hc]
  cases hg : mapGet s.cache id2 with
  | none => rfl
  | some a =>
    simp only [Option.some_bind]
    exact hext a (hWF (id2, a) (mem_of_mapGet_eq_some _ _ _ hg))

theorem getAllLoop_cache : ∀ (l : List (String × Nat)) (s : HeapStore),
    (getAllLoop l s).2.cache = s.cache
  | [], _ => rfl
  | (k, a) :: rest, s => by
    unfold getAllLoop HeapStore.deepCopy HeapStore.alloc
    rw [getAllLoop_cache rest]

theorem getAllLoop_heap_lt : ∀ (l : List (String × Nat)) (s : HeapStore) (a : Nat),
    a < s.next → mapGet (getAllLoop l s).2.heap a = mapGet s.heap a
  | [], _, _, _ => rfl
  | (k, a1) :: rest, s, a, h => by
    unfold getAllLoop HeapStore.deepCopy HeapStore.alloc
    rw [getAllLoop_heap_lt rest _ a (Nat.lt_succ_of_lt h)]
    exact mapGet_mapSet_ne _ _ _ _ (Nat.ne_of_lt h)

theorem getAllLoop_res_ge : ∀ (l : List (String × Nat)) (s : HeapStore) (b : Nat),
    b ∈ (getAllLoop l s).1 → s.next ≤ b
  | [], s, b, h => by simp [getAllLoop] at h
  | (k, a1) :: rest, s, b, h => by
    unfold getAllLoop HeapStore.deepCopy HeapStore.alloc at h
    rcases List.mem_cons.mp h with h | h
    · exact Nat.le_of_eq h.symm
    · exact Nat.le_of_succ_le (getAllLoop_res_ge rest _ b h)

theorem filterLoop_cache (f : JsObj → Bool × JsObj) :
    ∀ (l : List (String × Nat)) (s : HeapStore), (filterLoop f l s).2.cache = s.cache
  | [], _ => rfl
  | (k, a) :: rest, s => by
    unfold filterLoop HeapStore.deepCopy HeapStore.alloc HeapStore.write
    rcases hfv : f ((mapGet s.heap a).getD []) with ⟨b, v1⟩
    cases b with
    | true =>
      simp only [hfv, if_true]
      rw [filterLoop_cache f rest]
    | false =>
      simp only [hfv, Bool.false_eq_true, if_false]
      rw [filterLoop_cache f rest]

theorem filterLoop_res_ge (f : JsObj → Bool × JsObj) :
    ∀ (l : List (String × Nat)) (s : HeapStore) (b : Nat),
      b ∈ (filterLoop f l s).1 → s.next ≤ b
  | [], s, b, h => by simp [filterLoop] at h
  | (k, a) :: rest, s, b, h => by
    unfold filterLoop HeapStore.deepCopy HeapStore.alloc HeapStore.write at h
    rcases hfv : f ((mapGet s.heap a).getD []) with ⟨bv, v1⟩
    cases bv with
    | true =>
      simp only [hfv, if_true] at h
      rcases List.mem_cons.mp h with h | h
      · exact Nat.le_of_eq h.symm
      · exact Nat.le_of_succ_le (filterLoop_res_ge f rest _ b h)
    | false =>
      simp only [hfv, Bool.false_eq_true, if_false] at h
      exact filterLoop_res_ge f rest ⟨mapSet s.heap a v1, s.next, s.cache⟩ b h

/-- The record and store used by the C9 counterexample. -/
def hstore9 : HeapStore :=
  ⟨[(0, [("id", JsVal.strV "p1"), ("x", JsVal.numV 0)])], 1, [("p1", 0)]⟩

/-- A filter predicate that accepts its record after mutating its "x" field
in place — something a caller is free to write, since `filter` accepts an
arbitrary function. -/
def mutatingPred : JsObj → Bool × JsObj :=
  fun r => (true, mapSet r "x" (JsVal.numV 1))

/-- C9 counterexample: `filter` applies the predicate to the cached record
itself, so running `filter` with a predicate that mutates its argument
changes the record a later read observes — the cached record for "p1" goes
from x = 0 to x = 1, where the claim requires it unchanged. -/
theorem C9_counterexample :
    HeapStore.view hstore9 "p1" = some [("id", JsVal.strV "p1"), ("x", JsVal.numV 0)]
    ∧ HeapStore.view ((HeapStore.filter hstore9 mutatingPred).2) "p1"
      = some [("id", JsVal.strV "p1"), ("x", JsVal.numV 1)]
    ∧ ([("id", JsVal.strV "p1"), ("x", JsVal.numV 1)] : JsObj)
      ≠ [("id", JsVal.strV "p1"), ("x", JsVal.numV 0)] := by
  refine ⟨rfl, rfl, ?_⟩
  intro h
  have h2 := List.tail_eq_of_cons_eq h
  have h3 := List.head_eq_of_cons_eq h2
  have h4 := congrArg Prod.snd h3
  simp only at h4
  have h5 : (1 : Rat) = 0 := JsVal.numV.inj h4
  norm_num at h5

/-- C9 amended: every record handed out by the store — by `getById`, by
`getAll`, among `filter`'s outputs, and by `create` and `update` — is a
fresh copy outside the store's internal addresses, so writing to a received
record never changes what any later read observes; but the `filter`
predicate is applied to the cached record itself, so a mutating predicate
does change the record later reads observe (the part of the claim that
fails). -/
theorem C9_returned_copies_predicate_aliasing
    (s : HeapStore) (id idNew id0 : String) (a a0 da : Nat) (v : JsObj)
    (f : JsObj → Bool × JsObj) :
    (HeapStore.WF s → mapGet s.cache id = some a →
      (HeapStore.getById s id).1 = some s.next
      ∧ ∀ (w : JsObj) (id2 : String),
          HeapStore.view (HeapStore.write (HeapStore.getById s id).2 s.next w) id2
            = HeapStore.view s id2)
    ∧ (HeapStore.WF s → ∀ b ∈ (HeapStore.getAll s).1, ∀ (w : JsObj) (id2 : String),
        HeapStore.view (HeapStore.write (HeapStore.getAll s).2 b w) id2
          = HeapStore.view s id2)
    ∧ (HeapStore.WF s → ∀ b ∈ (HeapStore.filter s f).1, ∀ (w : JsObj) (id2 : String),
        HeapStore.view (HeapStore.write (HeapStore.filter s f).2 b w) id2
          = HeapStore.view (HeapStore.filter s f).2 id2)
    ∧ (HeapStore.WF s → mapHas s.cache idNew = false →
        (HeapStore.create s idNew da).1 = some (s.next + 1)
        ∧ ∀ (w : JsObj) (id2 : String),
            HeapStore.view
                (HeapStore.write (HeapStore.create s idNew da).2 (s.next + 1) w) id2
              = HeapStore.view (HeapStore.create s idNew da).2 id2)
    ∧ (HeapStore.WF s → mapHas s.cache id = true →
        (HeapStore.update s id da).1 = some (s.next + 1)
        ∧ ∀ (w : JsObj) (id2 : String),
            HeapStore.view
                (HeapStore.write (HeapStore.update s id da).2 (s.next + 1) w) id2
              = HeapStore.view (HeapStore.update s id da).2 id2)
    ∧ (s.cache = [(id0, a0)] → a0 < s.next → mapGet s.heap a0 = some v →
        HeapStore.view ((HeapStore.filter s f).2) id0 = some (f v).2) := by
  refine ⟨?_, ?_, ?_, ?_, ?_, ?_⟩
  · intro hWF hid
    constructor
    · unfold HeapStore.getById HeapStore.deepCopy HeapStore.alloc
      rw [hid]
    · intro w id2
      unfold HeapStore.getById HeapStore.deepCopy HeapStore.alloc
        HeapStore.view HeapStore.write
      simp only [hid]
      cases hc2 : mapGet s.cache id2 with
      | none => rfl
      | some a2 =>
        have ha2 : a2 < s.next := hWF (id2, a2) (mem_of_mapGet_eq_some s.cache id2 a2 hc2)
        have hne : a2 ≠ s.next := Nat.ne_of_lt ha2
        simp only [Option.some_bind]
        rw [mapGet_mapSet_ne _ _ _ _ hne, mapGet_mapSet_ne _ _ _ _ hne]
  · intro hWF b hb w id2
    have hbge : s.next ≤ b := getAllLoop_res_ge s.cache s b hb
    have hcache : (HeapStore.getAll s).2.cache = s.cache := getAllLoop_cache s.cache s
    rw [view_write_eq_of_notin_cache (HeapStore.getAll s).2 b w
      (fun p hp => by
        rw [hcache] at hp
        have := hWF p hp
        omega) id2]
    exact view_eq_of_extends s (HeapStore.getAll s).2 hcache hWF
      (getAllLoop_heap_lt s.cache s) id2
  · intro hWF b hb w id2
    have hbge : s.next ≤ b := filterLoop_res_ge f s.cache s b hb
    have hcache : (HeapStore.filter s f).2.cache = s.cache := filterLoop_cache f s.cache s
    exact view_write_eq_of_notin_cache (HeapStore.filter s f).2 b w
      (fun p hp => by
        rw [hcache] at hp
        have := hWF p hp
        omega) id2
  · intro hWF hnew
    unfold HeapStore.create HeapStore.deepCopy HeapStore.alloc
    simp only [hnew, Bool.false_eq_true, if_false]
    constructor
    · trivial
    · intro w id2
      apply view_write_eq_of_notin_cache
      intro p hp
      rcases mem_mapSet _ _ _ p hp with h | h
      · subst h
        exact Nat.ne_of_lt (Nat.lt_succ_self s.next)
      · have := hWF p h
        omega
  · intro hWF hupd
    unfold HeapStore.update HeapStore.deepCopy HeapStore.alloc
    simp only [hupd, if_true]
    constructor
    · trivial
    · intro w id2
      apply view_write_eq_of_notin_cache
      intro p hp
      rcases mem_mapSet _ _ _ p hp with h | h
      · subst h
        exact Nat.ne_of_lt (Nat.lt_succ_self s.next)
      · have := hWF p h
        omega
  · intro hc ha0 hv
    have hne : a0 ≠ s.next := Nat.ne_of_lt ha0
    unfold HeapStore.filter
    rw [hc]
    unfold filterLoop
    rw [hv]
    simp only [Option.getD_some]
    rcases hfv : f v with ⟨b, v1⟩
    cases b with
    | true =>
      unfold filterLoop HeapStore.deepCopy HeapStore.alloc HeapStore.write HeapStore.view
      simp only [hc, hfv, if_true, mapGet_cons_self, Option.some_bind]
      rw [mapGet_mapSet_ne _ _ _ _ hne, mapGet_mapSet_self]
    | false =>
      unfold filterLoop HeapStore.write HeapStore.view
      simp only [hc, hfv, Bool.false_eq_true, if_false, mapGet_cons_self, Option.some_bind]
      rw [mapGet_mapSet_self]

/-- Witness for C9 amended: on a one-record store, the records returned by
`getById`, `getAll`, `filter`, `create` and `update` are all fresh (writing
to each changes no later read of the state that returned it), and a
mutating filter predicate rewrites the cached record. -/
theorem C9_returned_copies_predicate_aliasing_witness :
    HeapStore.WF hstore9
    ∧ mapGet hstore9.cache "p1" = some 0
    ∧ hstore9.cache = [("p1", 0)]
    ∧ (0 : Nat) < hstore9.next
    ∧ mapGet hstore9.heap 0 = some [("id", JsVal.strV "p1"), ("x", JsVal.numV 0)]
    ∧ mapHas hstore9.cache "p2" = false
    ∧ mapHas hstore9.cache "p1" = true
    ∧ (1 : Nat) ∈ (HeapStore.getAll hstore9).1
    ∧ (1 : Nat) ∈ (HeapStore.filter hstore9 mutatingPred).1
    ∧ (HeapStore.getById hstore9 "p1").1 = some hstore9.next
    ∧ HeapStore.view (HeapStore.write (HeapStore.getById hstore9 "p1").2 hstore9.next
        [("hacked", JsVal.boolV true)]) "p1"
      = HeapStore.view hstore9 "p1"
    ∧ HeapStore.view (HeapStore.write (HeapStore.getAll hstore9).2 1
        [("hacked", JsVal.boolV true)]) "p1"
      = HeapStore.view hstore9 "p1"
    ∧ HeapStore.view (HeapStore.write (HeapStore.filter hstore9 mutatingPred).2 1
        [("hacked", JsVal.boolV true)]) "p1"
      = HeapStore.view (HeapStore.filter hstore9 mutatingPred).2 "p1"
    ∧ (HeapStore.create hstore9 "p2" 0).1 = some (hstore9.next + 1)
    ∧ HeapStore.view (HeapStore.write (HeapStore.create hstore9 "p2" 0).2
        (hstore9.next + 1) [("hacked", JsVal.boolV true)]) "p1"
      = HeapStore.view (HeapStore.create hstore9 "p2" 0).2 "p1"
    ∧ (HeapStore.update hstore9 "p1" 0).1 = some (hstore9.next + 1)
    ∧ HeapStore.view (HeapStore.write (HeapStore.update hstore9 "p1" 0).2
        (hstore9.next + 1) [("hacked", JsVal.boolV true)]) "p1"
      = HeapStore.view (HeapStore.update hstore9 "p1" 0).2 "p1"
    ∧ HeapStore.view ((HeapStore.filter hstore9 mutatingPred).2) "p1"
      = some (mutatingPred [("id", JsVal.strV "p1"), ("x", JsVal.numV 0)]).2 := by
  have h := C9_returned_copies_predicate_aliasing hstore9 "p1" "p2" "p1" 0 0 0
    [("id", JsVal.strV "p1"), ("x", JsVal.numV 0)] mutatingPred
  have hWF : HeapStore.WF hstore9 := by
    intro p hp
    simp only [hstore9, List.mem_singleton] at hp
    subst hp
    decide
  have hmemAll : (1 : Nat) ∈ (HeapStore.getAll hstore9).1 := by decide
  have hmemFil : (1 : Nat) ∈ (HeapStore.filter hstore9 mutatingPred).1 := by decide
  have h1 := h.1 hWF rfl
  have hcre := h.2.2.2.1 hWF rfl
  have hupd := h.2.2.2.2.1 hWF rfl
  have hpred := h.2.2.2.2.2 rfl (by decide) rfl
  exact ⟨hWF, rfl, rfl, by decide, rfl, rfl, rfl, hmemAll, hmemFil, h1.1,
    h1.2 [("hacked", JsVal.boolV true)] "p1",
    h.2.1 hWF 1 hmemAll [("hacked", JsVal.boolV true)] "p1",
    h.2.2.1 hWF 1 hmemFil [("hacked", JsVal.boolV true)] "p1",
    hcre.1, hcre.2 [("hacked", JsVal.boolV true)] "p1",
    hupd.1, hupd.2 [("hacked", JsVal.boolV true)] "p1",
    hpred⟩

end PollBuilder
